import Mathlib

/-!
Verification development for the Axiump axial-rotor geometry library.

Each Python function relevant to the verified claims is shallowly embedded
as a Lean definition: float arithmetic is modelled over the rationals where
the computation is algebraic, and over the reals where the source calls
transcendental functions (sin, cos, sqrt).  A Python `assert`/`raise` is
modelled as an `Except` error value.  The `memoize` decorator used in the
source is a pure cache and is elided (it does not change input/output
behaviour).  Error message strings from the source are represented by the
constructors of `PyErr` (Python exception class only; the interpolated
message text is elided).
-/

/-- Python exception kinds raised by the embedded code. -/
inductive PyErr
  | assertionError
  | zeroDivisionError
  | valueError
  | typeError
  deriving DecidableEq

/- ======================================================================
   axiumplib/utils/geom.py
   ====================================================================== -/

/-- geom.normalize_2D_vector: magn = sqrt (x^2 + y^2); the vector is divided
by its magnitude unless the magnitude is zero, in which case [0, 0] is
returned.  Returns (normalized_vector, magn). -/
noncomputable def normalize_2D_vector (x y : ℝ) : (ℝ × ℝ) × ℝ :=
  let magn := Real.sqrt (x ^ 2 + y ^ 2)
  if magn ≠ 0 then ((x / magn, y / magn), magn) else ((0, 0), magn)

/-- geom.wrap_point_on_X_axis_cylinder: asserts radius != 0 (note: the
assert message says the radius must be greater than 0 but the check only
rejects an exactly-zero radius), then theta = y / radius and the result is
[x, radius * sin theta, radius * cos theta]. -/
noncomputable def wrap_point_on_X_axis_cylinder (point : ℝ × ℝ) (radius : ℝ) :
    Except PyErr (ℝ × ℝ × ℝ) :=
  if radius = 0 then .error .assertionError
  else
    let theta := point.2 / radius
    .ok (point.1, radius * Real.sin theta, radius * Real.cos theta)

/-- geom.wrap_point_on_cylinder: asserts radius != 0, normalizes the axis,
shifts the point by the origin, projects onto the axis, measures the
perpendicular offset, and rewraps by arc length.  The 2-D vector algebra of
the numpy code is spelled out componentwise. -/
noncomputable def wrap_point_on_cylinder (point : ℝ × ℝ) (axis : ℝ × ℝ) (radius : ℝ)
    (origin : ℝ × ℝ) : Except PyErr (ℝ × ℝ × ℝ) :=
  if radius = 0 then .error .assertionError
  else
    let a := (normalize_2D_vector axis.1 axis.2).1
    let p := (point.1 - origin.1, point.2 - origin.2)
    let dotpa := p.1 * a.1 + p.2 * a.2
    let proj_point := (dotpa * a.1, dotpa * a.2)
    let dv := (p.1 - proj_point.1, p.2 - proj_point.2)
    let dist_vec := (normalize_2D_vector dv.1 dv.2).1
    let dist := (normalize_2D_vector dv.1 dv.2).2
    let theta := dist / radius
    .ok (proj_point.1 + radius * Real.sin theta * dist_vec.1 + origin.1,
         proj_point.2 + radius * Real.sin theta * dist_vec.2 + origin.2,
         radius * Real.cos theta)

/-- C5 counterexample: a strictly negative radius is accepted by both wrap
functions (the assert only rejects radius = 0), contradicting the claim
that every non-positive radius raises a caller error. -/
theorem wrap_negative_radius_accepted :
    (wrap_point_on_X_axis_cylinder (0, 0) (-1)).isOk = true ∧
    (wrap_point_on_cylinder (0, 0) (1, 0) (-1) (0, 0)).isOk = true := by
  constructor
  · rw [wrap_point_on_X_axis_cylinder, if_neg (by norm_num : ¬((-1 : ℝ) = 0))]
    rfl
  · rw [wrap_point_on_cylinder, if_neg (by norm_num : ¬((-1 : ℝ) = 0))]
    rfl

/-- C5 (amended): the cylindrical wrap operations raise an immediate caller
error exactly when the wrap radius equals zero; any nonzero radius,
including negative ones, is accepted and produces a wrapped point. -/
theorem wrap_radius_zero_check (point axis origin : ℝ × ℝ) (radius : ℝ) :
    (radius = 0 →
      wrap_point_on_X_axis_cylinder point radius = .error .assertionError ∧
      wrap_point_on_cylinder point axis radius origin = .error .assertionError) ∧
    (radius ≠ 0 →
      (wrap_point_on_X_axis_cylinder point radius).isOk = true ∧
      (wrap_point_on_cylinder point axis radius origin).isOk = true) := by
  constructor
  · intro h
    rw [wrap_point_on_X_axis_cylinder, wrap_point_on_cylinder, if_pos h, if_pos h]
    exact ⟨rfl, rfl⟩
  · intro h
    rw [wrap_point_on_X_axis_cylinder, wrap_point_on_cylinder, if_neg h, if_neg h]
    exact ⟨rfl, rfl⟩

/-- Witness for wrap_radius_zero_check at concrete inputs. -/
theorem wrap_radius_zero_check_witness :
    wrap_point_on_X_axis_cylinder (0, 0) 0 = .error .assertionError ∧
    (wrap_point_on_X_axis_cylinder (0, 0) 1).isOk = true := by
  refine ⟨(((wrap_radius_zero_check (0, 0) (1, 0) (0, 0) 0).1 rfl).1), ?_⟩
  exact ((wrap_radius_zero_check (0, 0) (1, 0) (0, 0) 1).2 (by norm_num)).1

/-- C10: for every 2-D point and nonzero radius, the wrapped point keeps the
input abscissa, lies exactly on the cylinder of the given radius about the
X axis, and the signed arc length radius * theta equals the input ordinate. -/
theorem wrap_on_cylinder_invariants (point : ℝ × ℝ) (radius : ℝ) (h : radius ≠ 0) :
    ∃ q : ℝ × ℝ × ℝ,
      wrap_point_on_X_axis_cylinder point radius = .ok q ∧
      q.1 = point.1 ∧
      q.2.1 ^ 2 + q.2.2 ^ 2 = radius ^ 2 ∧
      radius * (point.2 / radius) = point.2 := by
  refine ⟨(point.1, radius * Real.sin (point.2 / radius),
           radius * Real.cos (point.2 / radius)), ?_, rfl, ?_, ?_⟩
  · rw [wrap_point_on_X_axis_cylinder, if_neg h]
  · linear_combination radius ^ 2 * Real.sin_sq_add_cos_sq (point.2 / radius)
  · field_simp

/-- Witness for wrap_on_cylinder_invariants at point (0, 0) and radius 1. -/
theorem wrap_on_cylinder_invariants_witness :
    ∃ q : ℝ × ℝ × ℝ,
      wrap_point_on_X_axis_cylinder (0, 0) 1 = .ok q ∧
      q.1 = (0 : ℝ) ∧
      q.2.1 ^ 2 + q.2.2 ^ 2 = (1 : ℝ) ^ 2 ∧
      (1 : ℝ) * ((0 : ℝ) / 1) = 0 :=
  wrap_on_cylinder_invariants (0, 0) 1 (by norm_num)

/- ======================================================================
   axiumplib/blade.py : find_m_alpha (camber solver)
   ====================================================================== -/

/-- blade.find_m_alpha.  The guard is np.isclose(lea, tea, 1e-4), whose third
positional argument is the RELATIVE tolerance rtol, with the default absolute
tolerance atol = 1e-8; numpy's condition is
abs (lea - tea) <= atol + rtol * abs tea.  In the guarded case the result is
(0, lea); otherwise scipy's fsolve is invoked on the two-equation camber
system.  fsolve is external code, passed here as a parameter; the Bool in the
result records whether the numerical root-finder was invoked. -/
def find_m_alpha (fsolve : ℚ → ℚ → ℚ → ℚ × ℚ) (lea tea p : ℚ) : (ℚ × ℚ) × Bool :=
  if |lea - tea| ≤ 1 / 100000000 + 1 / 10000 * |tea| then ((0, lea), false)
  else (fsolve lea tea p, true)

/-- C4 counterexample: lea = 1e-5 and tea = 0 are within 1e-4 of each other,
yet np.isclose with rtol = 1e-4 and atol = 1e-8 is false there (1e-5 is
larger than 1e-8 + 1e-4 * 0), so the numerical root-finder IS invoked,
contradicting the claimed absolute 1e-4 window. -/
theorem find_m_alpha_isclose_counterexample :
    |(1 / 100000 : ℚ) - 0| ≤ 1 / 10000 ∧
    (find_m_alpha (fun _ _ _ => (0, 0)) (1 / 100000) 0 (1 / 2)).2 = true := by
  have habs : |(1 / 100000 : ℚ) - 0| = 1 / 100000 := by
    rw [sub_zero]
    exact abs_of_nonneg (by norm_num)
  constructor
  · rw [habs]
    norm_num
  · rw [find_m_alpha, if_neg (by rw [habs, abs_zero]; norm_num)]

/-- C4 (amended): find_m_alpha returns exactly (m = 0, alpha = lea) without
invoking the numerical root-finder whenever lea = tea, and more generally
whenever abs (lea - tea) <= 1e-8 + 1e-4 * abs tea (numpy's isclose with
relative tolerance 1e-4), independent of the camber position p. -/
theorem find_m_alpha_degenerate (fsolve : ℚ → ℚ → ℚ → ℚ × ℚ) (lea tea p : ℚ) :
    (lea = tea → find_m_alpha fsolve lea tea p = ((0, lea), false)) ∧
    (|lea - tea| ≤ 1 / 100000000 + 1 / 10000 * |tea| →
      find_m_alpha fsolve lea tea p = ((0, lea), false)) := by
  constructor
  · rintro rfl
    rw [find_m_alpha, if_pos (by simp; positivity)]
  · intro h
    rw [find_m_alpha, if_pos h]

/-- Witness for find_m_alpha_degenerate at lea = tea = 1, p = 1/2. -/
theorem find_m_alpha_degenerate_witness :
    find_m_alpha (fun _ _ _ => (0, 0)) 1 1 (1 / 2) = ((0, 1), false) :=
  (find_m_alpha_degenerate (fun _ _ _ => (0, 0)) 1 1 (1 / 2)).1 rfl

/- ======================================================================
   axiumplib/profile.py : flat_ellipse
   ====================================================================== -/

/-- Sign flip applied at the end of profile.flat_ellipse: if not top, y is
negated. -/
def flipSign (top : Bool) (y : ℝ) : ℝ :=
  if top then y else -y

/-- profile.flat_ellipse.  Faithful to Python execution order: first
assert c > 4 * w, then assert 0 <= t <= 1; then with a = 2 * w * c,
b = w * c, x = t * c, the nose branch (x < a) and tail branch (x >= c - a)
compute y = b * sqrt (1 - (...)^2 / a^2) - where Python raises
ZeroDivisionError when a^2 = 0 (the division is evaluated before sqrt) and
math.sqrt raises ValueError on a negative radicand - and the middle branch
returns y = w * c.  All comparisons are exact rational arithmetic; the
irrational y value lives in the reals. -/
noncomputable def flat_ellipse (t w c : ℚ) (top : Bool) : Except PyErr (ℚ × ℝ) :=
  if ¬(c > 4 * w) then .error .assertionError
  else if ¬(t ≥ 0 ∧ t ≤ 1) then .error .assertionError
  else
    let a : ℚ := 2 * w * c
    let b : ℚ := w * c
    let x : ℚ := t * c
    if x < a then
      if a ^ 2 = 0 then .error .zeroDivisionError
      else if 1 - (x - a) ^ 2 / a ^ 2 < 0 then .error .valueError
      else .ok (x, flipSign top ((b : ℝ) * Real.sqrt ((1 - (x - a) ^ 2 / a ^ 2 : ℚ) : ℝ)))
    else if x < c - a then .ok (x, flipSign top ((w : ℝ) * (c : ℝ)))
    else
      if a ^ 2 = 0 then .error .zeroDivisionError
      else if 1 - (x - c + a) ^ 2 / a ^ 2 < 0 then .error .valueError
      else .ok (x, flipSign top ((b : ℝ) * Real.sqrt ((1 - (x - c + a) ^ 2 / a ^ 2 : ℚ) : ℝ)))

/-- C6 counterexample: at w = 0, c = 1 the precondition c > 4 * w holds,
yet flat_ellipse at t = 1 raises ZeroDivisionError (Python divides by
a^2 = 0 in the tail branch) instead of returning a point. -/
theorem flat_ellipse_zero_width_counterexample :
    flat_ellipse 1 0 1 true = .error .zeroDivisionError := by
  rw [flat_ellipse]
  norm_num

/-- C6 (amended): for all t in the unit interval and c <= 4 * w the
flat-ellipse profile raises the contract error as its FIRST action, before
any coordinate is computed (in the embedding the assertion branch precedes
every arithmetic branch); for c > 4 * w together with w > 0 it never raises
and returns a point.  (For w = 0 the precondition c > 4 * w alone does not
guarantee a point: see flat_ellipse_zero_width_counterexample.) -/
theorem flat_ellipse_precondition :
    (∀ (t w c : ℚ) (top : Bool), c ≤ 4 * w →
      flat_ellipse t w c top = .error .assertionError) ∧
    (∀ (t w c : ℚ) (top : Bool), 0 ≤ t → t ≤ 1 → 0 < w → 4 * w < c →
      ∃ pt, flat_ellipse t w c top = .ok pt) := by
  constructor
  · intro t w c top h
    rw [flat_ellipse, if_pos (not_lt.mpr h)]
  · intro t w c top ht0 ht1 hw h4
    have hc : 0 < c := lt_trans (by linarith) h4
    have hx0 : 0 ≤ t * c := mul_nonneg ht0 (le_of_lt hc)
    have hxc : t * c ≤ c := by nlinarith
    have ha : 0 < 2 * w * c := by positivity
    have ha2 : (0 : ℚ) < (2 * w * c) ^ 2 := by positivity
    simp only [flat_ellipse]
    rw [if_neg (not_not_intro h4), if_neg (not_not_intro ⟨ht0, ht1⟩)]
    by_cases h3 : t * c < 2 * w * c
    · rw [if_pos h3, if_neg (by positivity : ¬((2 * w * c) ^ 2 = 0)),
        if_neg (not_lt.mpr (by
          rw [sub_nonneg, div_le_one ha2]
          nlinarith))]
      exact ⟨_, rfl⟩
    · rw [if_neg h3]
      by_cases h6 : t * c < c - 2 * w * c
      · rw [if_pos h6]
        exact ⟨_, rfl⟩
      · rw [if_neg h6, if_neg (by positivity : ¬((2 * w * c) ^ 2 = 0)),
          if_neg (not_lt.mpr (by
            rw [sub_nonneg, div_le_one ha2]
            push_neg at h3 h6
            nlinarith))]
        exact ⟨_, rfl⟩

/-- Witness for flat_ellipse_precondition at concrete inputs. -/
theorem flat_ellipse_precondition_witness :
    flat_ellipse (1 / 2) 1 1 true = .error .assertionError ∧
    ∃ pt, flat_ellipse (1 / 2) (1 / 100) 1 true = .ok pt :=
  ⟨flat_ellipse_precondition.1 (1 / 2) 1 1 true (by norm_num),
   flat_ellipse_precondition.2 (1 / 2) (1 / 100) 1 true (by norm_num) (by norm_num)
     (by norm_num) (by norm_num)⟩

/- ======================================================================
   axiumplib/utils/occ.py : rotation_array
   ====================================================================== -/

/-- Rotation of a 3-D point by the given angle about the X axis through the
origin (gp_Trsf.SetRotation with the rotation_array default axis
gp_Ax1(gp_Pnt(), gp_Dir()), i.e. point [0,0,0] and direction [1,0,0]). -/
noncomputable def gp_Trsf_rotation_X (angle : ℝ) (p : ℝ × ℝ × ℝ) : ℝ × ℝ × ℝ :=
  (p.1, Real.cos angle * p.2.1 - Real.sin angle * p.2.2,
   Real.sin angle * p.2.1 + Real.cos angle * p.2.2)

/-- BRepBuilderAPI_Transform applied with a rotation transform and
copy = True: a shape is modelled as its set of points and the transform as
the pointwise image. -/
noncomputable def BRepBuilderAPI_Transform_rotation (angle : ℝ)
    (shape : Set (ℝ × ℝ × ℝ)) : Set (ℝ × ℝ × ℝ) :=
  Set.image (gp_Trsf_rotation_X angle) shape

/-- occ.rotation_array with the default point [0, 0, 0] and axis [1, 0, 0]:
array starts as [object] (the untransformed input itself) and for
i in range(1, n) the object rotated by i * angle / n is appended. -/
noncomputable def rotation_array (object : Set (ℝ × ℝ × ℝ)) (n : ℕ) (angle : ℝ) :
    List (Set (ℝ × ℝ × ℝ)) :=
  object :: (List.range (n - 1)).map
    (fun i => BRepBuilderAPI_Transform_rotation (((i + 1 : ℕ) : ℝ) * angle / (n : ℝ)) object)

/-- C7: for every shape and every n >= 1, rotation_array with the default
full-circle angle 2 * pi returns n copies; copy 0 is the input itself,
untransformed, and copy i for 1 <= i < n is the input rotated by exactly
i * (2 * pi) / n about the rotor (X) axis. -/
theorem rotation_array_spec (object : Set (ℝ × ℝ × ℝ)) (n : ℕ) (hn : 1 ≤ n) :
    (rotation_array object n (2 * Real.pi)).length = n ∧
    (rotation_array object n (2 * Real.pi)).getD 0 ∅ = object ∧
    (∀ i : ℕ, 1 ≤ i → i < n →
      (rotation_array object n (2 * Real.pi)).getD i ∅ =
        BRepBuilderAPI_Transform_rotation ((i : ℝ) * (2 * Real.pi) / (n : ℝ)) object) := by
  refine ⟨?_, rfl, ?_⟩
  · simp only [rotation_array, List.length_cons, List.length_map, List.length_range]
    omega
  · intro i hi1 hin
    obtain ⟨j, rfl⟩ : ∃ j, i = j + 1 := ⟨i - 1, by omega⟩
    have hj : j < n - 1 := by omega
    rw [rotation_array, List.getD_cons_succ,
      List.getD_eq_getElem _ _ (by simpa using hj)]
    rw [List.getElem_map, List.getElem_range]

/-- Witness for rotation_array_spec at a singleton shape and n = 2, i = 1. -/
theorem rotation_array_spec_witness :
    (rotation_array {((1 : ℝ), (0 : ℝ), (0 : ℝ))} 2 (2 * Real.pi)).length = 2 ∧
    (rotation_array {((1 : ℝ), (0 : ℝ), (0 : ℝ))} 2 (2 * Real.pi)).getD 0 ∅ =
      {((1 : ℝ), (0 : ℝ), (0 : ℝ))} ∧
    (rotation_array {((1 : ℝ), (0 : ℝ), (0 : ℝ))} 2 (2 * Real.pi)).getD 1 ∅ =
      BRepBuilderAPI_Transform_rotation (((1 : ℕ) : ℝ) * (2 * Real.pi) / ((2 : ℕ) : ℝ))
        {((1 : ℝ), (0 : ℝ), (0 : ℝ))} := by
  obtain ⟨h1, h2, h3⟩ := rotation_array_spec {((1 : ℝ), (0 : ℝ), (0 : ℝ))} 2 (by norm_num)
  exact ⟨h1, h2, h3 1 (by norm_num) (by norm_num)⟩

/- ======================================================================
   axiumplib/rotor.py : RotorParameters derived sub-records
   ====================================================================== -/

/-- Hub type selector (hub.py builds a revolved profile for type biconic). -/
inductive HubType
  | biconic
  deriving DecidableEq

/-- hub.HubParameters: the numeric fields passed by RotorParameters.hub_params. -/
structure HubParameters where
  type : HubType
  tot_length : ℚ
  radius : ℚ
  front_length : ℚ
  back_length : ℚ
  front_angle : ℚ
  back_angle : ℚ
  front_fillet_radius : ℚ
  back_fillet_radius : ℚ

/-- blade.BladeParameters: the numeric fields set by RotorParameters.blade_params
(the function-valued fields lead_angle_func and camber_angle_func are passed
through unchanged and are elided here). -/
structure BladeParameters where
  profile_type : ℕ
  blade_length : ℚ
  thickness : ℚ
  camber_position : ℚ
  min_radius : ℚ
  max_radius : ℚ

/-- rotor.RotorParameters: numeric configuration fields (the two
function-valued blade angle fields are elided). -/
structure RotorParameters where
  tot_length : ℚ
  n_blades : ℕ
  blade_profile_type : ℕ
  blade_camber_position : ℚ
  blade_thickness : ℚ
  blade_max_radius : ℚ
  blade_clearance : ℚ
  hub_type : HubType
  hub_radius : ℚ
  hub_front_length : ℚ
  hub_back_length : ℚ
  hub_front_angle : ℚ
  hub_back_angle : ℚ
  hub_front_fillet_radius : ℚ
  hub_back_fillet_radius : ℚ
  shroud_thickness : ℚ
  shroud_slant_angle : ℚ
  shroud_in_fillet_radius : ℚ
  shroud_out_fillet_radius : ℚ

/-- rotor.RotorParameters.blade_params: blade_length is derived from the
UNREDUCED hub lengths. -/
def RotorParameters.blade_params (p : RotorParameters) : BladeParameters :=
  ⟨p.blade_profile_type,
   p.tot_length - p.hub_front_length - p.hub_back_length - p.blade_clearance,
   p.blade_thickness, p.blade_camber_position, p.hub_radius, p.blade_max_radius⟩

/-- rotor.RotorParameters.hub_params: front_length and back_length are each
the rotor-level lengths reduced by the hard-coded constant 0.036. -/
def RotorParameters.hub_params (p : RotorParameters) : HubParameters :=
  ⟨p.hub_type, p.tot_length, p.hub_radius,
   p.hub_front_length - 36 / 1000, p.hub_back_length - 36 / 1000,
   p.hub_front_angle, p.hub_back_angle,
   p.hub_front_fillet_radius, p.hub_back_fillet_radius⟩

/-- C8: for every RotorParameters instance, hub_params builds the hub
cross-section from hub lengths reduced by exactly 0.036 = 36/1000, while
blade_params derives blade_length from the unreduced hub lengths, so the two
derivations use hub lengths differing by exactly 0.036. -/
theorem rotor_params_hub_length_offset (p : RotorParameters) :
    p.hub_params.front_length = p.hub_front_length - 36 / 1000 ∧
    p.hub_params.back_length = p.hub_back_length - 36 / 1000 ∧
    p.blade_params.blade_length =
      p.tot_length - p.hub_front_length - p.hub_back_length - p.blade_clearance ∧
    p.hub_front_length - p.hub_params.front_length = 36 / 1000 ∧
    p.hub_back_length - p.hub_params.back_length = 36 / 1000 := by
  refine ⟨rfl, rfl, rfl, ?_, ?_⟩
  · show p.hub_front_length - (p.hub_front_length - 36 / 1000) = 36 / 1000
    ring
  · show p.hub_back_length - (p.hub_back_length - 36 / 1000) = 36 / 1000
    ring

/- ======================================================================
   axiumplib/utils/occ.py boolean_union and its call from
   axiumplib/rotor.py RotorBuilder.get_occ_solid
   ====================================================================== -/

/-- Keyword names involved in the get_occ_solid call of boolean_union. -/
inductive PyKeyword
  | shapes
  | check_modified
  deriving DecidableEq

/-- The parameter list of occ.boolean_union: def boolean_union(shapes). -/
def boolean_union_params : List PyKeyword := [.shapes]

/-- The keyword arguments passed at rotor.py line 57:
boolean_union(self.parts, check_modified=self.fillet_edges). -/
def get_occ_solid_boolean_union_kwargs : List PyKeyword := [.check_modified]

/-- occ.boolean_union: raises ValueError on an empty list, else fuses
shapes[0] as the base with shapes[1:] as the tools (BRepAlgoAPI_Fuse,
abstracted by the fuse parameter) and returns the single fused shape.  It
has no check_modified parameter and no second return value. -/
def boolean_union {α : Type} (fuse : α → α → α) (shapes : List α) : Except PyErr α :=
  match shapes with
  | [] => .error .valueError
  | s0 :: rest => .ok (rest.foldl fuse s0)

/-- rotor.RotorBuilder.get_occ_solid, first statement (line 57): the call
boolean_union(self.parts, check_modified=self.fillet_edges).  Python raises
TypeError before entering the callee whenever a passed keyword argument is
not among the callee's parameter names. -/
def rotor_get_occ_solid {α : Type} (fuse : α → α → α) (parts : List α) : Except PyErr α :=
  if get_occ_solid_boolean_union_kwargs.all (fun k => boolean_union_params.contains k) then
    boolean_union fuse parts
  else .error .typeError

/-- C2: RotorBuilder.get_occ_solid cannot perform the claimed
union-with-edge-tracking: occ.boolean_union accepts no check_modified
keyword and returns a single shape, so the call at rotor.py line 57 raises
TypeError for every parts list, before any union, tracking or filleting. -/
theorem get_occ_solid_check_modified_type_error :
    ∀ (α : Type) (fuse : α → α → α) (parts : List α),
      rotor_get_occ_solid fuse parts = .error .typeError := by
  intro α fuse parts
  rfl

/- ======================================================================
   axiumplib/blade.py : is_edge_at_radius and _create_cylinder_cap
   ====================================================================== -/

/-- glob_params.BLADE_CAP_RADIUS_TOL = 1e-6. -/
noncomputable def BLADE_CAP_RADIUS_TOL : ℝ := 1 / 1000000

/-- Radial distance of a 3-D point from the X axis, as computed by
blade.is_edge_at_radius: gp_Pnt(0, y, z).Distance(gp_Pnt()) is
sqrt (y^2 + z^2). -/
noncomputable def radial_distance (p : ℝ × ℝ × ℝ) : ℝ :=
  Real.sqrt (p.2.1 ^ 2 + p.2.2 ^ 2)

/-- blade.is_edge_at_radius: an edge is represented by the list of its
vertices; the loop returns False as soon as one vertex's radial distance
differs from target_radius by more than BLADE_CAP_RADIUS_TOL, and True when
the loop finishes. -/
noncomputable def is_edge_at_radius (edge : List (ℝ × ℝ × ℝ)) (target_radius : ℝ) : Bool :=
  match edge with
  | [] => true
  | v :: rest =>
    if |radial_distance v - target_radius| > BLADE_CAP_RADIUS_TOL then false
    else is_edge_at_radius rest target_radius

/-- blade.BladeBuilder._create_cylinder_cap, edge-selection and failure part:
cap_edges filters the blade-face edges through is_edge_at_radius; when no
edge matches, ValueError is raised.  The wire building, surface trimming and
face fixing that follow on success are external CAD-kernel calls; the value
returned here on success is the selected cap edge list. -/
noncomputable def create_cylinder_cap (edges : List (List (ℝ × ℝ × ℝ)))
    (target_radius : ℝ) : Except PyErr (List (List (ℝ × ℝ × ℝ))) :=
  let cap_edges := edges.filter (fun e => is_edge_at_radius e target_radius)
  if cap_edges = [] then .error .valueError
  else .ok cap_edges

/-- The early-exit vertex loop of is_edge_at_radius is equivalent to the
all-vertices-within-tolerance predicate. -/
lemma is_edge_at_radius_iff (edge : List (ℝ × ℝ × ℝ)) (r0 : ℝ) :
    is_edge_at_radius edge r0 = true ↔
      ∀ v ∈ edge, |radial_distance v - r0| ≤ BLADE_CAP_RADIUS_TOL := by
  induction edge with
  | nil => simp [is_edge_at_radius]
  | cons v rest ih =>
    rw [is_edge_at_radius]
    by_cases h : |radial_distance v - r0| > BLADE_CAP_RADIUS_TOL
    · rw [if_pos h]
      constructor
      · intro hfalse
        exact absurd hfalse (by simp)
      · intro hall
        exact absurd (hall v (by simp)) (not_le.mpr h)
    · rw [if_neg h, ih]
      constructor
      · intro hall x hx
        rcases List.mem_cons.mp hx with rfl | hx2
        · exact not_lt.mp h
        · exact hall x hx2
      · intro hall x hx
        exact hall x (List.mem_cons_of_mem v hx)

/-- C3: the cap-edge classifier selects an edge if and only if every one of
its vertices lies within BLADE_CAP_RADIUS_TOL of the target radius; and when
every edge has some vertex outside tolerance (zero edges match), cap
construction raises an error instead of building an open shell. -/
theorem cap_edge_classification :
    (∀ (edge : List (ℝ × ℝ × ℝ)) (r0 : ℝ),
      is_edge_at_radius edge r0 = true ↔
        ∀ v ∈ edge, |radial_distance v - r0| ≤ BLADE_CAP_RADIUS_TOL) ∧
    (∀ (edges : List (List (ℝ × ℝ × ℝ))) (r0 : ℝ),
      (∀ e ∈ edges, ∃ v ∈ e, |radial_distance v - r0| > BLADE_CAP_RADIUS_TOL) →
        create_cylinder_cap edges r0 = .error .valueError) := by
  refine ⟨is_edge_at_radius_iff, ?_⟩
  intro edges r0 hno
  have hfilter : edges.filter (fun e => is_edge_at_radius e r0) = [] := by
    rw [List.filter_eq_nil_iff]
    intro e he
    obtain ⟨v, hv, hgt⟩ := hno e he
    intro htrue
    exact absurd ((is_edge_at_radius_iff e r0).mp htrue v hv) (not_le.mpr hgt)
  simp [create_cylinder_cap, hfilter]

/-- Witness for cap_edge_classification: the single edge with one vertex at
radial distance 5 from the axis matches no edge at target radius 0, so cap
construction errors. -/
theorem cap_edge_classification_witness :
    create_cylinder_cap [[((0 : ℝ), (3 : ℝ), (4 : ℝ))]] 0 = .error .valueError := by
  apply cap_edge_classification.2
  intro e he
  rw [List.mem_singleton] at he
  subst he
  refine ⟨(0, 3, 4), by simp, ?_⟩
  have h5 : radial_distance ((0 : ℝ), 3, 4) = 5 := by
    rw [radial_distance]
    norm_num
    rw [show (25 : ℝ) = 5 ^ 2 by norm_num, Real.sqrt_sq (by norm_num : (0 : ℝ) ≤ 5)]
  rw [h5, BLADE_CAP_RADIUS_TOL]
  norm_num

/- ======================================================================
   Seam-list aliasing: blade.DEFAULT_SEAMS, _create_blade_faces,
   get_occ_solid and rotor.RotorBuilder.add_blades
   ====================================================================== -/

/-- A fragment of the Python object store for seam lists: one cell per list
object, addressed by index.  Python evaluates a default-argument expression
once, at function definition time, and binds the resulting object, so every
function whose u_seams default is the module-level DEFAULT_SEAMS list shares
one cell. -/
structure PyListStore where
  cells : List (List ℚ)

/-- The cell holding the module-level blade.DEFAULT_SEAMS list object. -/
def DEFAULT_SEAMS_cell : ℕ := 0

/-- The store at module load: blade.DEFAULT_SEAMS = [0.25, 0.75]. -/
def init_store : PyListStore := ⟨[[1 / 4, 3 / 4]]⟩

/-- Python list.sort(): replaces the referenced list object's contents, in
place, with their stable sorted permutation. -/
def list_sort_inplace (st : PyListStore) (r : ℕ) : PyListStore :=
  ⟨st.cells.set r (List.insertionSort (· ≤ ·) (st.cells.getD r []))⟩

/-- blade.BladeBuilder._create_blade_faces, seam-list effect: raises
ValueError when the referenced seam list is empty, then executes
u_seams.sort() on the caller's list object (reference r).  The remaining
body reads but never writes the seam list. -/
def create_blade_faces_effect (st : PyListStore) (r : ℕ) : Except PyErr PyListStore :=
  if st.cells.getD r [] = [] then .error .valueError
  else .ok (list_sort_inplace st r)

/-- Default binding of the u_seams parameter of _create_blade_faces. -/
def create_blade_faces_default_useams : ℕ := DEFAULT_SEAMS_cell

/-- Default binding of the u_seams parameter of BladeBuilder.get_occ_solid. -/
def get_occ_solid_default_useams : ℕ := DEFAULT_SEAMS_cell

/-- Default binding of the u_seams parameter of RotorBuilder.add_blades. -/
def add_blades_default_useams : ℕ := DEFAULT_SEAMS_cell

/-- blade.BladeBuilder.get_occ_solid forwards its u_seams reference to
_create_blade_faces unchanged. -/
def get_occ_solid_effect (st : PyListStore) (r : ℕ) : Except PyErr PyListStore :=
  create_blade_faces_effect st r

/-- rotor.RotorBuilder.add_blades forwards its u_seams reference through
get_occ_solid unchanged. -/
def add_blades_effect (st : PyListStore) (r : ℕ) : Except PyErr PyListStore :=
  get_occ_solid_effect st r

/-- C9: _create_blade_faces sorts the referenced seam list in place: after a
successful call the caller's list object holds the sorted permutation of its
previous contents (so an unsorted caller list is permanently reordered), no
other list object changes, add_blades routes its seam list to the very same
effect, and the default u_seams binding of _create_blade_faces, get_occ_solid
and add_blades is one shared cell - the module-level DEFAULT_SEAMS object -
so default-argument calls all mutate that shared list. -/
theorem seam_list_shared_mutation (st : PyListStore) (r : ℕ)
    (hr : r < st.cells.length) (hne : st.cells.getD r [] ≠ []) :
    ∃ st2, create_blade_faces_effect st r = .ok st2 ∧
      st2.cells.getD r [] = List.insertionSort (· ≤ ·) (st.cells.getD r []) ∧
      (¬(st.cells.getD r []).Sorted (· ≤ ·) →
        st2.cells.getD r [] ≠ st.cells.getD r []) ∧
      (∀ r2, r2 ≠ r → st2.cells.getD r2 [] = st.cells.getD r2 []) ∧
      add_blades_effect st r = create_blade_faces_effect st r ∧
      add_blades_default_useams = DEFAULT_SEAMS_cell ∧
      get_occ_solid_default_useams = DEFAULT_SEAMS_cell ∧
      create_blade_faces_default_useams = DEFAULT_SEAMS_cell := by
  have hcell : (list_sort_inplace st r).cells.getD r [] =
      List.insertionSort (· ≤ ·) (st.cells.getD r []) := by
    rw [list_sort_inplace]
    rw [List.getD_eq_getElem _ _ (by simpa using hr)]
    simp [List.getElem_set_self]
  refine ⟨list_sort_inplace st r, ?_, hcell, ?_, ?_, rfl, rfl, rfl, rfl⟩
  · rw [create_blade_faces_effect, if_neg hne]
  · intro hns heq
    rw [hcell] at heq
    exact hns (heq ▸ List.sorted_insertionSort _ _)
  · intro r2 hr2
    rw [list_sort_inplace]
    simp [List.getD, List.getElem?_set_ne (Ne.symm hr2)]

/-- Witness for seam_list_shared_mutation on the initial store and the
shared DEFAULT_SEAMS cell. -/
theorem seam_list_shared_mutation_witness :
    ∃ st2, create_blade_faces_effect init_store DEFAULT_SEAMS_cell = .ok st2 ∧
      st2.cells.getD DEFAULT_SEAMS_cell [] =
        List.insertionSort (· ≤ ·) (init_store.cells.getD DEFAULT_SEAMS_cell []) := by
  obtain ⟨st2, h1, h2, -⟩ :=
    seam_list_shared_mutation init_store DEFAULT_SEAMS_cell
      (by simp [init_store, DEFAULT_SEAMS_cell])
      (by simp [init_store, DEFAULT_SEAMS_cell])
  exact ⟨st2, h1, h2⟩

/- ======================================================================
   axiumplib/blade.py : _create_blade_faces seam partition (value level)
   ====================================================================== -/

/-- The seam-insertion loop of _create_blade_faces: for each seam of the
(already sorted) seam list, if it is not yet among the samples it is
appended and the sample array re-sorted - np.sort(np.append(u_vals, seam)). -/
def insert_seams (u_vals : List ℚ) (u_seams : List ℚ) : List ℚ :=
  u_seams.foldl
    (fun acc s => if s ∈ acc then acc else List.insertionSort (· ≤ ·) (acc ++ [s]))
    u_vals

/-- One chordwise sample sub-range of _create_blade_faces, from the sorted
seam list s and the seam-completed sample list u: for i = 0 the wraparound
range concatenates the samples at or above the last seam (Python index
u_seams[-1], i.e. position length - 1) with the samples at or below the
first seam; for i >= 1 it keeps the samples lying between seams i-1 and i
inclusive. -/
def loc_u_vals (u : List ℚ) (s : List ℚ) (i : ℕ) : List ℚ :=
  if i = 0 then
    u.filter (fun x => decide (s.getD (s.length - 1) 0 ≤ x)) ++
      u.filter (fun x => decide (x ≤ s.getD 0 0))
  else
    u.filter (fun x => decide (s.getD (i - 1) 0 ≤ x) && decide (x ≤ s.getD i 0))

/-- blade.BladeBuilder._create_blade_faces, sample-partition part: raises
ValueError when the seam list is empty; sorts the seam list; completes the
sample list with every missing seam; and yields one sample sub-range per
seam interval.  The BSpline surface fitted to each sub-range is an external
CAD-kernel call and is not modelled; the faces list is represented by the
list of sample sub-ranges. -/
def create_blade_faces_ranges (u_vals u_seams : List ℚ) : Except PyErr (List (List ℚ)) :=
  if u_seams = [] then .error .valueError
  else
    .ok ((List.range (List.insertionSort (· ≤ ·) u_seams).length).map
      (loc_u_vals (insert_seams u_vals (List.insertionSort (· ≤ ·) u_seams))
        (List.insertionSort (· ≤ ·) u_seams)))

/-- Membership in the seam-completed sample list. -/
lemma mem_insert_seams (u_vals u_seams : List ℚ) (x : ℚ) :
    x ∈ insert_seams u_vals u_seams ↔ x ∈ u_vals ∨ x ∈ u_seams := by
  induction u_seams generalizing u_vals with
  | nil => simp [insert_seams]
  | cons a t ih =>
    have hstep : ∀ acc : List ℚ,
        x ∈ (if a ∈ acc then acc else List.insertionSort (· ≤ ·) (acc ++ [a])) ↔
          x ∈ acc ∨ x = a := by
      intro acc
      by_cases ha : a ∈ acc
      · rw [if_pos ha]
        constructor
        · exact Or.inl
        · rintro (h | rfl)
          · exact h
          · exact ha
      · rw [if_neg ha, (List.perm_insertionSort _ _).mem_iff, List.mem_append,
          List.mem_singleton]
    show x ∈ insert_seams
        (if a ∈ u_vals then u_vals else List.insertionSort (· ≤ ·) (u_vals ++ [a])) t ↔ _
    rw [ih, hstep, List.mem_cons]
    tauto

/-- An in-range getD value is a member of the list. -/
lemma getD_mem_of_lt (s : List ℚ) (i : ℕ) (h : i < s.length) : s.getD i 0 ∈ s := by
  rw [List.getD_eq_getElem _ _ h]
  exact List.getElem_mem h

/-- getD is monotone on a sorted list inside the valid index range. -/
lemma sorted_getD_mono (s : List ℚ) (hs : s.Sorted (· ≤ ·)) (i j : ℕ)
    (hij : i ≤ j) (hj : j < s.length) : s.getD i 0 ≤ s.getD j 0 := by
  rcases eq_or_lt_of_le hij with rfl | hlt
  · exact le_refl _
  · rw [List.getD_eq_getElem _ _ (lt_of_le_of_lt hij hj), List.getD_eq_getElem _ _ hj]
    have := List.pairwise_iff_get.mp hs ⟨i, lt_of_le_of_lt hij hj⟩ ⟨j, hj⟩ hlt
    simpa using this

/-- On a sorted list, a value strictly between the first and the last entry
is bracketed by a consecutive pair of entries. -/
lemma sorted_exists_bracket :
    ∀ s : List ℚ, s.Sorted (· ≤ ·) → ∀ x : ℚ, s ≠ [] →
      s.getD 0 0 < x → x < s.getD (s.length - 1) 0 →
      ∃ i, 1 ≤ i ∧ i < s.length ∧ s.getD (i - 1) 0 ≤ x ∧ x ≤ s.getD i 0 := by
  intro s
  induction s with
  | nil =>
    intro _ x hne
    exact absurd rfl hne
  | cons a t ih =>
    intro hs x _ h1 h2
    cases t with
    | nil =>
      rw [List.getD_cons_zero] at h1
      simp only [List.length_singleton, Nat.sub_self, List.getD_cons_zero] at h2
      exact absurd (lt_trans h1 h2) (lt_irrefl a)
    | cons b t2 =>
      by_cases hxb : x ≤ b
      · refine ⟨1, le_refl 1, by simp, ?_, hxb⟩
        rw [List.getD_cons_zero]
        exact le_of_lt h1
      · push_neg at hxb
        have hst : (b :: t2).Sorted (· ≤ ·) := hs.of_cons
        have h2' : x < (b :: t2).getD ((b :: t2).length - 1) 0 := by
          simpa [List.getD_cons_succ] using h2
        obtain ⟨i, hi1, hilen, hlow, hhigh⟩ :=
          ih hst x (List.cons_ne_nil b t2) (by simpa using hxb) h2'
        refine ⟨i + 1, by omega, by simpa using Nat.succ_lt_succ hilen, ?_, ?_⟩
        · obtain ⟨i2, rfl⟩ : ∃ i2, i = i2 + 1 := ⟨i - 1, by omega⟩
          simpa [List.getD_cons_succ] using hlow
        · simpa [List.getD_cons_succ] using hhigh

/-- C1: for every non-empty sorted seam list (with samples and seams in the
unit interval), _create_blade_faces yields one sub-range per seam interval
over the seam-completed sample set; the first sub-range contains exactly the
samples in the wraparound union of the intervals from the last seam to 1 and
from 0 to the first seam, sub-range i >= 1 contains exactly the samples
between seams i-1 and i, every seam value is itself a sample (boundaries at
seam values), every sample lies in some sub-range (no gap), and a sample in
two distinct sub-ranges is a seam value (no overlap other than shared seam
samples). -/
theorem create_blade_faces_seam_partition (u_seams u_vals : List ℚ)
    (hne : u_seams ≠ []) (hsorted : u_seams.Sorted (· ≤ ·))
    (hvals01 : ∀ u ∈ u_vals, 0 ≤ u ∧ u ≤ 1)
    (hseams01 : ∀ s ∈ u_seams, 0 ≤ s ∧ s ≤ 1) :
    ∃ ranges, create_blade_faces_ranges u_vals u_seams = .ok ranges ∧
      ranges.length = u_seams.length ∧
      (∀ i, i < u_seams.length →
        ranges.getD i [] = loc_u_vals (insert_seams u_vals u_seams) u_seams i) ∧
      (∀ s ∈ u_seams, s ∈ insert_seams u_vals u_seams) ∧
      (∀ x, x ∈ loc_u_vals (insert_seams u_vals u_seams) u_seams 0 ↔
        x ∈ insert_seams u_vals u_seams ∧
          ((u_seams.getD (u_seams.length - 1) 0 ≤ x ∧ x ≤ 1) ∨
           (0 ≤ x ∧ x ≤ u_seams.getD 0 0))) ∧
      (∀ i, 1 ≤ i → i < u_seams.length → ∀ x,
        x ∈ loc_u_vals (insert_seams u_vals u_seams) u_seams i ↔
          x ∈ insert_seams u_vals u_seams ∧
            u_seams.getD (i - 1) 0 ≤ x ∧ x ≤ u_seams.getD i 0) ∧
      (∀ x ∈ insert_seams u_vals u_seams, ∃ i, i < u_seams.length ∧
        x ∈ loc_u_vals (insert_seams u_vals u_seams) u_seams i) ∧
      (∀ i j, i < j → j < u_seams.length → ∀ x,
        x ∈ loc_u_vals (insert_seams u_vals u_seams) u_seams i →
        x ∈ loc_u_vals (insert_seams u_vals u_seams) u_seams j →
        x ∈ u_seams) := by
  have hsort_eq : List.insertionSort (· ≤ ·) u_seams = u_seams :=
    hsorted.insertionSort_eq
  have hU01 : ∀ x ∈ insert_seams u_vals u_seams, 0 ≤ x ∧ x ≤ 1 := by
    intro x hx
    rcases (mem_insert_seams u_vals u_seams x).mp hx with h | h
    · exact hvals01 x h
    · exact hseams01 x h
  have hn : 0 < u_seams.length := List.length_pos.mpr hne
  have hloc0 : ∀ x, x ∈ loc_u_vals (insert_seams u_vals u_seams) u_seams 0 ↔
      x ∈ insert_seams u_vals u_seams ∧
        ((u_seams.getD (u_seams.length - 1) 0 ≤ x ∧ x ≤ 1) ∨
         (0 ≤ x ∧ x ≤ u_seams.getD 0 0)) := by
    intro x
    rw [loc_u_vals, if_pos rfl, List.mem_append, List.mem_filter, List.mem_filter]
    simp only [decide_eq_true_eq]
    constructor
    · rintro (⟨hxU, hge⟩ | ⟨hxU, hle⟩)
      · exact ⟨hxU, Or.inl ⟨hge, (hU01 x hxU).2⟩⟩
      · exact ⟨hxU, Or.inr ⟨(hU01 x hxU).1, hle⟩⟩
    · rintro ⟨hxU, hcase⟩
      rcases hcase with ⟨hge, -⟩ | ⟨-, hle⟩
      · exact Or.inl ⟨hxU, hge⟩
      · exact Or.inr ⟨hxU, hle⟩
  have hloci : ∀ i, 1 ≤ i → ∀ x,
      x ∈ loc_u_vals (insert_seams u_vals u_seams) u_seams i ↔
        x ∈ insert_seams u_vals u_seams ∧
          u_seams.getD (i - 1) 0 ≤ x ∧ x ≤ u_seams.getD i 0 := by
    intro i hi x
    rw [loc_u_vals, if_neg (by omega), List.mem_filter]
    simp only [Bool.and_eq_true, decide_eq_true_eq]
  have hcover : ∀ x ∈ insert_seams u_vals u_seams, ∃ i, i < u_seams.length ∧
      x ∈ loc_u_vals (insert_seams u_vals u_seams) u_seams i := by
    intro x hx
    by_cases hfirst : x ≤ u_seams.getD 0 0
    · exact ⟨0, hn, (hloc0 x).mpr ⟨hx, Or.inr ⟨(hU01 x hx).1, hfirst⟩⟩⟩
    · push_neg at hfirst
      by_cases hlast : u_seams.getD (u_seams.length - 1) 0 ≤ x
      · exact ⟨0, hn, (hloc0 x).mpr ⟨hx, Or.inl ⟨hlast, (hU01 x hx).2⟩⟩⟩
      · push_neg at hlast
        obtain ⟨i, hi1, hilen, hlow, hhigh⟩ :=
          sorted_exists_bracket u_seams hsorted x hne hfirst hlast
        exact ⟨i, hilen, (hloci i hi1 x).mpr ⟨hx, hlow, hhigh⟩⟩
  have hnoover : ∀ i j, i < j → j < u_seams.length → ∀ x,
      x ∈ loc_u_vals (insert_seams u_vals u_seams) u_seams i →
      x ∈ loc_u_vals (insert_seams u_vals u_seams) u_seams j →
      x ∈ u_seams := by
    intro i j hij hjlen x hxi hxj
    have hj1 : 1 ≤ j := by omega
    obtain ⟨hxU, hjlow, hjhigh⟩ := (hloci j hj1 x).mp hxj
    by_cases hi0 : i = 0
    · subst hi0
      obtain ⟨-, hcase⟩ := (hloc0 x).mp hxi
      rcases hcase with ⟨hlast, -⟩ | ⟨-, hfirst⟩
      · have hmono : u_seams.getD j 0 ≤ u_seams.getD (u_seams.length - 1) 0 :=
          sorted_getD_mono u_seams hsorted j (u_seams.length - 1) (by omega) (by omega)
        have hxj2 : x = u_seams.getD j 0 :=
          le_antisymm hjhigh (le_trans hmono hlast)
        rw [hxj2]
        exact getD_mem_of_lt u_seams j hjlen
      · have hmono : u_seams.getD 0 0 ≤ u_seams.getD (j - 1) 0 :=
          sorted_getD_mono u_seams hsorted 0 (j - 1) (by omega) (by omega)
        have hxj2 : x = u_seams.getD (j - 1) 0 :=
          le_antisymm (le_trans hfirst hmono) hjlow
        rw [hxj2]
        exact getD_mem_of_lt u_seams (j - 1) (by omega)
    · have hi1 : 1 ≤ i := by omega
      obtain ⟨-, hilow, hihigh⟩ := (hloci i hi1 x).mp hxi
      have hmono : u_seams.getD i 0 ≤ u_seams.getD (j - 1) 0 :=
        sorted_getD_mono u_seams hsorted i (j - 1) (by omega) (by omega)
      have hxeq : x = u_seams.getD i 0 :=
        le_antisymm hihigh (le_trans hmono hjlow)
      rw [hxeq]
      exact getD_mem_of_lt u_seams i (by omega)
  refine ⟨(List.range u_seams.length).map
      (loc_u_vals (insert_seams u_vals u_seams) u_seams), ?_, by simp, ?_, ?_,
    hloc0, fun i hi1 _ x => hloci i hi1 x, hcover, hnoover⟩
  · rw [create_blade_faces_ranges, if_neg hne, hsort_eq]
  · intro i hi
    rw [List.getD_eq_getElem _ _ (by simpa using hi), List.getElem_map,
      List.getElem_range]
  · intro s hs
    exact (mem_insert_seams u_vals u_seams s).mpr (Or.inr hs)

/-- Witness for create_blade_faces_seam_partition at the default seams
[0.25, 0.75] and samples [0, 0.5, 1]. -/
theorem create_blade_faces_seam_partition_witness :
    ∃ ranges, create_blade_faces_ranges [0, 1 / 2, 1] [1 / 4, 3 / 4] = .ok ranges ∧
      ranges.length = ([1 / 4, 3 / 4] : List ℚ).length := by
  obtain ⟨ranges, h1, h2, -⟩ :=
    create_blade_faces_seam_partition [1 / 4, 3 / 4] [0, 1 / 2, 1]
      (by simp)
      (by simp [List.sorted_cons]; norm_num)
      (by intro u hu; fin_cases hu <;> norm_num)
      (by intro s hs; fin_cases hs <;> norm_num)
  exact ⟨ranges, h1, h2⟩
